import Mathlib

/-
Verification of the parser core of `snakefmt` (`snakefmt/parser/syntax.py`)
against its natural-language specification.

The Python source is shallowly embedded: token streams become `List Token`,
the mutable parser state becomes explicit state records threaded through
recursive functions, and raised exceptions become `Except PErr` results.
The two external collaborators of the parameter parser — the vocabulary
(`incident_vocab.recognises`) and the assignment-target validity check that
the source performs with `exec(f"{value} = 0")` — are passed in as boolean
functions on strings, since the parser only ever consults them pointwise.
Exception payloads (the `L<line>: ...` message strings) are not modelled;
errors are distinguished by kind, mirroring the distinct exception classes.
-/

namespace Snakefmt

/-- Token kinds of the external lexer (Python `tokenize` module) that the
parser core dispatches on. -/
inductive TokType where
  | NAME
  | OP
  | STRING
  | COMMENT
  | NEWLINE
  | NL
  | INDENT
  | DEDENT
  | ENDMARKER
  | NUMBER
deriving DecidableEq, Repr

/-- A classified token: kind, text, and 1-based starting line. -/
structure Token where
  type : TokType
  string : String
  line : Nat
deriving DecidableEq, Repr

/-- `is_colon` from the source. -/
def is_colon (t : Token) : Bool :=
  t.type == TokType.OP && t.string == ":"

/-- `brack_open` from the source. -/
def brack_open (t : Token) : Bool :=
  t.type == TokType.OP && t.string == "("

/-- `brack_close` from the source. -/
def brack_close (t : Token) : Bool :=
  t.type == TokType.OP && t.string == ")"

/-- `is_equal_sign` from the source. -/
def is_equal_sign (t : Token) : Bool :=
  t.type == TokType.OP && t.string == "="

/-- `is_comma_sign` from the source. -/
def is_comma_sign (t : Token) : Bool :=
  t.type == TokType.OP && t.string == ","

/-- Python `str.isspace()`: non-empty and all whitespace. -/
def pyIsSpace (s : String) : Bool :=
  decide (0 < s.data.length) && s.data.all Char.isWhitespace

/-- `not_to_ignore` from the source: non-empty text, not pure whitespace,
not a comment. -/
def not_to_ignore (t : Token) : Bool :=
  decide (0 < t.string.length) && !pyIsSpace t.string && !(t.type == TokType.COMMENT)

/-- `possibly_named_keywords` from the source. -/
def possibly_named_keywords : List String := ["rule", "checkpoint"]

/-- `accept_python_code` from the source. -/
def accept_python_code : List String := ["run", "onstart", "onsuccess", "onerror"]

/-- Error kinds: the exception classes the source raises.  `stopIteration`
models an exhausted token iterator inside a header parse; `assertionError`
models the failed `assert target_indent >= 0`; `typeError` models a Python
`TypeError` from calling a function with the wrong number of arguments. -/
inductive PErr where
  | namedKeywordError
  | pySyntaxError
  | duplicateKeyWordError
  | emptyContextError
  | invalidParameterSyntaxErr
  | noParametersError
  | tooManyParameters
  | invalidParameter
  | stopIteration
  | assertionError
  | typeError
deriving DecidableEq, Repr

/-- Splitting a character list at whitespace, keeping (possibly empty)
chunks; helper for `pyWords`. -/
def splitWS : List Char → List (List Char)
  | [] => [[]]
  | c :: cs =>
    match splitWS cs, c.isWhitespace with
    | r, true => [] :: r
    | [], false => [[c]]
    | w :: r, false => (c :: w) :: r

/-- Python `str.split()` with no argument: whitespace-delimited words,
empty chunks dropped.  Used for the source's `len(cur_param.value.split())`. -/
def pyWords (s : String) : List String :=
  ((splitWS s.data).filter (fun w => !w.isEmpty)).map (fun w => ⟨w⟩)

/-
Parameter model (`class Parameter`).
-/

/-- `Parameter`: one accumulating parameter.  (The source also initialises
an unused `self.len = 0`; it is never read, so it is omitted.) -/
structure Parameter where
  key : String
  value : String
  comments : List String
  is_string : Bool
deriving DecidableEq, Repr

/-- A fresh parameter, as built by `Parameter.__init__`. -/
def Parameter.init : Parameter := ⟨"", "", [], true⟩

/-- `Parameter.has_key`. -/
def Parameter.has_key (p : Parameter) : Bool := decide (0 < p.key.length)

/-- `Parameter.has_value`. -/
def Parameter.has_value (p : Parameter) : Bool := decide (0 < p.value.length)

/-- `Parameter.add_elem`: append token text to the value, inserting a space
before a NAME token when the value is non-empty, and clearing the
pure-string flag on any non-STRING token. -/
def Parameter.add_elem (p : Parameter) (t : Token) : Parameter :=
  { p with
    is_string := if t.type == TokType.STRING then p.is_string else false
    value :=
      if decide (0 < p.value.length) && (t.type == TokType.NAME) then
        p.value ++ " " ++ t.string
      else
        p.value ++ t.string }

/-- `Parameter.to_key_val_mode`: requires an accumulated value, validates it
as an assignment target (the source runs `exec(f"{value} = 0")`; here the
check is the supplied `validTarget` oracle), then moves value to key. -/
def Parameter.to_key_val_mode (p : Parameter) (validTarget : String → Bool) :
    Except PErr Parameter :=
  if !p.has_value then Except.error PErr.invalidParameterSyntaxErr
  else if !validTarget p.value then Except.error PErr.invalidParameterSyntaxErr
  else Except.ok { p with key := p.value, value := "", is_string := true }

/-
Parameter list parsing (`class ParameterSyntax`), embedded as explicit state
passing.  `PState` holds the instance attributes that `parse_params`,
`check_exit`, `process_token` and `flush_param` read and write.
-/

/-- Mutable state of one parameter-list parse: `cur_indent`,
`found_newline`, `in_brackets`, `positional_params`, `keyword_params`. -/
structure PState where
  curIndent : Int
  foundNewline : Bool
  inBrackets : Bool
  positional : List Parameter
  keyword : List Parameter
deriving DecidableEq, Repr

/-- `ParameterSyntax.num_params`. -/
def numParamsSt (st : PState) : Nat :=
  st.keyword.length + st.positional.length

/-- `ParameterSyntax.flush_param`: skip a valueless parameter only when
`skip_empty` is set; otherwise append to the keyed or positional list. -/
def flushParam (st : PState) (p : Parameter) (skipEmpty : Bool) : PState :=
  if !p.has_value && skipEmpty then st
  else if p.has_key then { st with keyword := st.keyword ++ [p] }
  else { st with positional := st.positional ++ [p] }

/-- `ParameterSyntax.check_exit`: after a newline, a significant token at an
indent below the target flushes the current parameter (skipping it if
empty) and stops the scan. -/
def checkExit (target : Int) (st : PState) (t : Token) (cur : Parameter) :
    Bool × PState :=
  if st.foundNewline && not_to_ignore t then
    if st.curIndent < target then (true, flushParam st cur true)
    else (false, st)
  else (false, st)

/-- The bracket-flag update of `process_token` (lines 257-260): an open
bracket raises `in_brackets`, a close bracket lowers it. -/
def brackToggle (st : PState) (t : Token) : PState :=
  if brack_close t then
    { (if brack_open t then { st with inBrackets := true } else st) with
      inBrackets := false }
  else if brack_open t then { st with inBrackets := true } else st

/-- `ParameterSyntax.process_token`: one step of the parameter-list scan.
`vocab` is `incident_vocab.recognises`; `validTarget` is the assignment
-target check of `to_key_val_mode`.  (In the source the bracket toggles of
`brackToggle` run just before the recognised-keyword guard; as the guard's
exception discards the state, performing them in the same branch is
behaviourally identical.) -/
def processToken (vocab validTarget : String → Bool) (st : PState) (t : Token)
    (cur : Parameter) : Except PErr (Parameter × PState) :=
  if t.type = TokType.INDENT then
    Except.ok (cur, { st with curIndent := st.curIndent + 1 })
  else if t.type = TokType.DEDENT then
    Except.ok (cur, { st with curIndent := st.curIndent - 1 })
  else if t.type = TokType.NEWLINE ∨ t.type = TokType.NL then
    Except.ok (cur, { st with foundNewline := true })
  else if t.type = TokType.COMMENT then
    Except.ok ({ cur with comments := cur.comments ++ [t.string] }, st)
  else if is_equal_sign t && !st.inBrackets then
    match cur.to_key_val_mode validTarget with
    | Except.error e => Except.error e
    | Except.ok cur2 => Except.ok (cur2, st)
  else if is_comma_sign t && !st.inBrackets then
    Except.ok (Parameter.init, flushParam st cur false)
  else if t.type ≠ TokType.ENDMARKER then
    if (pyWords cur.value).length = 1 then
      if vocab cur.value then Except.error PErr.invalidParameterSyntaxErr
      else Except.ok (cur.add_elem t, brackToggle st t)
    else Except.ok (cur.add_elem t, brackToggle st t)
  else
    Except.ok (cur, st)

/-- The `while True` loop of `ParameterSyntax.parse_params`: iterator
exhaustion flushes the final parameter (skipping it if empty) and sets the
eof flag; otherwise `check_exit` may stop the scan, else the token is
processed.  Returns the final state and the eof flag. -/
def parseLoop (vocab validTarget : String → Bool) (target : Int) :
    List Token → PState → Parameter → Except PErr (PState × Bool)
  | [], st, cur => Except.ok (flushParam st cur true, true)
  | t :: rest, st, cur =>
    match checkExit target st t cur with
    | (true, st2) => Except.ok (st2, false)
    | (false, st2) =>
      match processToken vocab validTarget st2 t cur with
      | Except.error e => Except.error e
      | Except.ok (cur2, st3) => parseLoop vocab validTarget target rest st3 cur2

/-- The state `parse_params` starts from: `cur_indent = max(target - 1, 0)`
(set by `Syntax.__init__`), flags cleared, both parameter lists empty. -/
def initPState (target : Int) : PState :=
  ⟨max (target - 1) 0, false, false, [], []⟩

/-- `ParameterSyntax.parse_params` on the token stream positioned after the
header colon: run the scan loop, then fail with `NoParametersError` if no
parameter was produced. -/
def parseParams (vocab validTarget : String → Bool) (target : Int)
    (toks : List Token) : Except PErr (PState × Bool) :=
  match parseLoop vocab validTarget target toks (initPState target) Parameter.init with
  | Except.error e => Except.error e
  | Except.ok (st, eof) =>
    if numParamsSt st = 0 then Except.error PErr.noParametersError
    else Except.ok (st, eof)

/-- `SingleParam`: the generic parse followed by the two specialised
checks, in source order. -/
def singleParam (vocab validTarget : String → Bool) (target : Int)
    (toks : List Token) : Except PErr (PState × Bool) :=
  match parseParams vocab validTarget target toks with
  | Except.error e => Except.error e
  | Except.ok (st, eof) =>
    if 1 < numParamsSt st then Except.error PErr.tooManyParameters
    else if !(st.keyword.length == 0) then Except.error PErr.invalidParameter
    else Except.ok (st, eof)

/-- `NoKeywordParamList.__init__` executes
`super().__init__(keyword_name, target_indent, snakefile)`, passing three
positional arguments where `ParameterSyntax.__init__` requires four
(`keyword_name`, `target_indent`, `incident_vocab`, `snakefile`, none
defaulted).  Python therefore raises
`TypeError: __init__() missing 1 required positional argument: 'snakefile'`
at the call, before any token is consumed, and the keyed-parameter check at
the end of the constructor is unreachable. -/
def noKeywordParamList (vocab validTarget : String → Bool) (target : Int)
    (toks : List Token) : Except PErr (PState × Bool) :=
  Except.error PErr.typeError

/-
Keyword-block tracking (`class Syntax`, `class KeywordSyntax`).
-/

/-- `Syntax.__init__` with a token stream: asserts the target indent is
non-negative, then resolves the keyword identity (consuming an optional
name for nameable keywords) and requires a colon.  Returns the resolved
identity, the colon token (the cursor's `self.token`), and the rest. -/
def headerInit (kw : String) (target : Int) (toks : List Token) :
    Except PErr (String × Token × List Token) :=
  if target < 0 then Except.error PErr.assertionError
  else
    match toks with
    | [] => Except.error PErr.stopIteration
    | t1 :: rest =>
      match
        (if !is_colon t1 then
          if possibly_named_keywords.contains kw then
            if t1.type ≠ TokType.NAME then Except.error PErr.namedKeywordError
            else
              match rest with
              | [] => Except.error PErr.stopIteration
              | t2 :: rest2 => Except.ok (kw ++ " " ++ t1.string, t2, rest2)
          else Except.ok (kw, t1, rest)
        else Except.ok (kw, t1, rest) : Except PErr (String × Token × List Token))
      with
      | Except.error e => Except.error e
      | Except.ok (kw2, t, rest2) =>
        if !is_colon t then Except.error PErr.pySyntaxError
        else Except.ok (kw2, t, rest2)

/-- `KeywordSyntax.add_processed_keyword` on the parent's processed set
(modelled as a list with membership): a duplicate identity is an error.
(`if keyword is "":` falls back to the token's text.) -/
def addProcessedKeyword (processed : List String) (t : Token) (keyword : String) :
    Except PErr (List String) :=
  let kw := if keyword == "" then t.string else keyword
  if processed.contains kw then Except.error PErr.duplicateKeyWordError
  else Except.ok (processed ++ [kw])

/-- Result of `KeywordSyntax.__init__` with an incident context: the
resolved identity, captured trailing comment, the fresh `queriable` flag,
the initial `cur_indent`, the parent's updated processed set, and the
tokens remaining after the consumed newline. -/
structure KeywordInitResult where
  keyword_name : String
  comment : String
  queriable : Bool
  curIndent : Int
  parentProcessed : List String
  rest : List Token
deriving DecidableEq, Repr

/-- `KeywordSyntax.__init__` with a parent context: header resolution, the
parent registers the identity, then an optional trailing comment and a
mandatory newline are consumed. -/
def keywordInit (kw : String) (target : Int) (parentProcessed : List String)
    (toks : List Token) : Except PErr KeywordInitResult :=
  match headerInit kw target toks with
  | Except.error e => Except.error e
  | Except.ok (kw2, colonTok, rest) =>
    match addProcessedKeyword parentProcessed colonTok kw2 with
    | Except.error e => Except.error e
    | Except.ok processed2 =>
      match rest with
      | [] => Except.error PErr.stopIteration
      | t :: rest2 =>
        if t.type = TokType.COMMENT then
          match rest2 with
          | [] => Except.error PErr.stopIteration
          | t2 :: rest3 =>
            if t2.type ≠ TokType.NEWLINE then Except.error PErr.pySyntaxError
            else
              Except.ok ⟨kw2, " " ++ t.string, true, max (target - 1) 0, processed2, rest3⟩
        else
          if t.type ≠ TokType.NEWLINE then Except.error PErr.pySyntaxError
          else Except.ok ⟨kw2, "", true, max (target - 1) 0, processed2, rest2⟩

/-- `"\t" * cur_indent` (empty for non-positive counts, as in Python). -/
def tabs (d : Int) : String := ⟨List.replicate d.toNat '\t'⟩

/-- Yield of `KeywordSyntax.get_next_queriable`: the token, the depth at
which it was found, the buffer accumulated since the previous yield, and
the end-of-input flag. -/
structure KStatus where
  token : Token
  indent : Int
  buffer : String
  eof : Bool
deriving DecidableEq, Repr

/-- `KeywordSyntax.get_next_queriable`: pull tokens until a NAME at depth
at most `target` while queriable, or ENDMARKER, is yielded.  Arguments
after the token list: `cur_indent`, `queriable`, the loop-local `newline`
flag, and the running buffer.  Returns the yield, the final `cur_indent`
and `queriable`, and the unconsumed tokens; `none` models `StopIteration`
escaping from an exhausted stream. -/
def getNextQueriable (target : Int) :
    List Token → Int → Bool → Bool → String →
    Option (KStatus × Int × Bool × List Token)
  | [], _, _, _, _ => none
  | t :: rest, cur, q, nl, buf =>
    if t.type = TokType.NAME then
      let buf2 := if nl then buf ++ tabs cur else buf
      if cur ≤ target ∧ q = true then
        some (⟨t, cur, buf2, false⟩, cur, false, rest)
      else getNextQueriable target rest cur q false (buf2 ++ " " ++ t.string)
    else if t.type = TokType.INDENT then
      getNextQueriable target rest (cur + 1) q nl buf
    else if t.type = TokType.DEDENT then
      getNextQueriable target rest (if 0 < cur then cur - 1 else cur) q nl
        (buf ++ t.string)
    else if t.type = TokType.ENDMARKER then
      some (⟨t, cur, buf, true⟩, cur, q, rest)
    else if t.type = TokType.NEWLINE then
      getNextQueriable target rest cur true true (buf ++ t.string)
    else
      getNextQueriable target rest cur q nl (buf ++ t.string)

/-
Indentation-step views of the two trackers, for depth-invariant reasoning.
-/

/-- The depth update of `get_next_queriable` (lines 139-144): indent
increments, dedent decrements floored at zero, all else leaves the depth. -/
def keywordIndentStep (d : Int) (t : Token) : Int :=
  if t.type = TokType.INDENT then d + 1
  else if t.type = TokType.DEDENT then (if 0 < d then d - 1 else d)
  else d

/-- The depth update of `ParameterSyntax.process_token` (lines 243-246):
indent increments, dedent decrements unconditionally. -/
def paramIndentStep (d : Int) (t : Token) : Int :=
  if t.type = TokType.INDENT then d + 1
  else if t.type = TokType.DEDENT then d - 1
  else d

/-- Net indent contribution of one token. -/
def indentDelta (t : Token) : Int :=
  if t.type = TokType.INDENT then 1
  else if t.type = TokType.DEDENT then -1
  else 0

/-- Net indent contribution of a token sequence. -/
def netIndent (ts : List Token) : Int :=
  (ts.map indentDelta).sum

/-
Concrete instances used by witnesses and counterexamples.
-/

/-- A vocabulary recognising nothing. -/
def vocabNone : String → Bool := fun _ => false

/-- A vocabulary recognising only `rule`. -/
def vocabRule : String → Bool := fun s => s == "rule"

/-- An assignment-target check accepting everything. -/
def validAll : String → Bool := fun _ => true

/-- A NAME token. -/
def mkName (s : String) (n : Nat) : Token := ⟨TokType.NAME, s, n⟩

/-- An OP token. -/
def mkOp (s : String) (n : Nat) : Token := ⟨TokType.OP, s, n⟩

/-- A NUMBER token. -/
def mkNum (s : String) (n : Nat) : Token := ⟨TokType.NUMBER, s, n⟩

/-
Supporting lemmas on indentation bookkeeping.
-/

theorem netIndent_nil : netIndent [] = 0 := rfl

theorem netIndent_cons (t : Token) (ts : List Token) :
    netIndent (t :: ts) = indentDelta t + netIndent ts := by
  simp [netIndent]

theorem netIndent_append (ts us : List Token) :
    netIndent (ts ++ us) = netIndent ts + netIndent us := by
  simp [netIndent]

/-- As long as every dedent is processed at positive depth (guaranteed by
the prefix-sum condition), the keyword tracker's floored step behaves like
plain addition of the net indent. -/
theorem foldl_keywordIndentStep (ts : List Token) :
    ∀ d : Int, (∀ n : Nat, 0 ≤ d + netIndent (ts.take n)) →
    List.foldl keywordIndentStep d ts = d + netIndent ts := by
  induction ts with
  | nil => intro d _; simp [netIndent]
  | cons t ts ih =>
    intro d h
    have h1 : 0 ≤ d + indentDelta t := by
      have := h 1
      simpa [netIndent_cons, netIndent] using this
    have hstep : keywordIndentStep d t = d + indentDelta t := by
      by_cases hI : t.type = TokType.INDENT
      · simp [keywordIndentStep, indentDelta, hI]
      · by_cases hD : t.type = TokType.DEDENT
        · have hpos : 0 < d := by
            simp [indentDelta, hI, hD] at h1
            omega
          simp only [keywordIndentStep, indentDelta, if_neg hI, if_pos hD, if_pos hpos]
          omega
        · simp [keywordIndentStep, indentDelta, hI, hD]
    rw [List.foldl_cons, hstep, ih (d + indentDelta t) ?_, netIndent_cons]
    · ring
    · intro n
      have := h (n + 1)
      rw [List.take_succ_cons, netIndent_cons] at this
      omega

/-- The parameter parser's unfloored step is plain addition of the net
indent, unconditionally. -/
theorem foldl_paramIndentStep (ts : List Token) :
    ∀ d : Int, List.foldl paramIndentStep d ts = d + netIndent ts := by
  induction ts with
  | nil => intro d; simp [netIndent]
  | cons t ts ih =>
    intro d
    have hstep : paramIndentStep d t = d + indentDelta t := by
      by_cases hI : t.type = TokType.INDENT
      · simp [paramIndentStep, indentDelta, hI]
      · by_cases hD : t.type = TokType.DEDENT
        · simp only [paramIndentStep, indentDelta, if_neg hI, if_pos hD]
          omega
        · simp [paramIndentStep, indentDelta, hI, hD]
    rw [List.foldl_cons, hstep, ih, netIndent_cons]
    ring

/-
Claim C1.
-/

/-- C1 counterexample: the claim asserts that in the parameter-list parser
the depth counter is never decremented below zero by a dedent token, but
`ParameterSyntax.process_token` decrements `cur_indent` unconditionally
(line 246): a dedent processed at depth `0` drives the counter to `-1`. -/
theorem C1_counterexample :
    processToken vocabNone validAll ⟨0, false, false, [], []⟩
        ⟨TokType.DEDENT, "", 5⟩ Parameter.init
      = Except.ok (Parameter.init, ⟨-1, false, false, [], []⟩)
    ∧ (-1 : Int) < 0 := by
  exact ⟨rfl, by decide⟩

/-- C1 (amended): in the keyword-block tracker (`get_next_queriable`) the
depth counter never goes below zero and a matched indent/dedent token pair
(with a balanced interior) returns it to its original value; in the
parameter-list parser (`process_token`) a matched indent/dedent pair also
restores the counter, but a dedent token decrements the counter
unconditionally, with no floor at zero.  Conjuncts: (1) the keyword
tracker's counter stays non-negative across any pull; (2) the keyword
tracker consumes indent/dedent tokens exactly by `keywordIndentStep`;
(3) a matched pair under `keywordIndentStep` restores the depth; (4) the
parameter parser consumes indent/dedent tokens exactly by
`paramIndentStep`; (5) a matched pair under `paramIndentStep` restores the
depth; (6) `paramIndentStep` subtracts one on every dedent, whatever the
current depth. -/
theorem C1_indent_depth_amended :
    (∀ (target : Int) (toks : List Token) (cur : Int) (q nl : Bool) (buf : String)
        (res : KStatus × Int × Bool × List Token), 0 ≤ cur →
      getNextQueriable target toks cur q nl buf = some res → 0 ≤ res.2.1)
    ∧ (∀ (target : Int) (t : Token) (rest : List Token) (cur : Int) (q nl : Bool)
        (buf : String), t.type = TokType.INDENT ∨ t.type = TokType.DEDENT →
        getNextQueriable target (t :: rest) cur q nl buf =
          getNextQueriable target rest (keywordIndentStep cur t) q nl
            (if t.type = TokType.INDENT then buf else buf ++ t.string))
    ∧ (∀ (ti td : Token) (d : Int) (ts : List Token),
        ti.type = TokType.INDENT → td.type = TokType.DEDENT → 0 ≤ d →
        netIndent ts = 0 → (∀ n : Nat, 0 ≤ netIndent (ts.take n)) →
        List.foldl keywordIndentStep d (ti :: (ts ++ [td])) = d)
    ∧ (∀ (vocab valid : String → Bool) (st : PState) (t : Token) (cur : Parameter),
        t.type = TokType.INDENT ∨ t.type = TokType.DEDENT →
        processToken vocab valid st t cur =
          Except.ok (cur, { st with curIndent := paramIndentStep st.curIndent t }))
    ∧ (∀ (ti td : Token) (d : Int) (ts : List Token),
        ti.type = TokType.INDENT → td.type = TokType.DEDENT → netIndent ts = 0 →
        List.foldl paramIndentStep d (ti :: (ts ++ [td])) = d)
    ∧ (∀ (d : Int) (t : Token), t.type = TokType.DEDENT → paramIndentStep d t = d - 1) := by
  refine ⟨?_, ?_, ?_, ?_, ?_, ?_⟩
  · intro target toks
    induction toks with
    | nil => intro cur q nl buf res h0 h; simp [getNextQueriable] at h
    | cons t rest ih =>
      intro cur q nl buf res h0 h
      rw [getNextQueriable] at h
      by_cases hN : t.type = TokType.NAME
      · rw [if_pos hN] at h
        by_cases hy : cur ≤ target ∧ q = true
        · rw [if_pos hy] at h
          obtain rfl : (⟨⟨t, cur, _, false⟩, cur, false, rest⟩ :
              KStatus × Int × Bool × List Token) = res := Option.some.inj h
          exact h0
        · rw [if_neg hy] at h
          exact ih cur q false _ res h0 h
      · rw [if_neg hN] at h
        by_cases hI : t.type = TokType.INDENT
        · rw [if_pos hI] at h
          exact ih (cur + 1) q nl buf res (by omega) h
        · rw [if_neg hI] at h
          by_cases hD : t.type = TokType.DEDENT
          · rw [if_pos hD] at h
            refine ih _ q nl _ res ?_ h
            by_cases hc : 0 < cur
            · rw [if_pos hc]; omega
            · rw [if_neg hc]; omega
          · rw [if_neg hD] at h
            by_cases hE : t.type = TokType.ENDMARKER
            · rw [if_pos hE] at h
              obtain rfl : (⟨⟨t, cur, buf, true⟩, cur, q, rest⟩ :
                  KStatus × Int × Bool × List Token) = res := Option.some.inj h
              exact h0
            · rw [if_neg hE] at h
              by_cases hL : t.type = TokType.NEWLINE
              · rw [if_pos hL] at h
                exact ih cur true true _ res h0 h
              · rw [if_neg hL] at h
                exact ih cur q nl _ res h0 h
  · intro target t rest cur q nl buf h
    rcases h with hI | hD
    · have hN : ¬t.type = TokType.NAME := by rw [hI]; decide
      rw [getNextQueriable, if_neg hN, if_pos hI, if_pos hI,
        keywordIndentStep, if_pos hI]
    · have hN : ¬t.type = TokType.NAME := by rw [hD]; decide
      have hI : ¬t.type = TokType.INDENT := by rw [hD]; decide
      rw [getNextQueriable, if_neg hN, if_neg hI, if_pos hD, if_neg hI,
        keywordIndentStep, if_neg hI, if_pos hD]
  · intro ti td d ts hti htd hd hnet hpre
    rw [List.foldl_cons]
    have h1 : keywordIndentStep d ti = d + 1 := by
      simp [keywordIndentStep, hti]
    rw [h1, foldl_keywordIndentStep]
    · rw [netIndent_append, hnet, netIndent_cons, netIndent_nil]
      have : indentDelta td = -1 := by
        have : ¬td.type = TokType.INDENT := by rw [htd]; decide
        simp [indentDelta, this, htd]
      omega
    · intro n
      rw [List.take_append_eq_append_take, netIndent_append]
      by_cases hn : n ≤ ts.length
      · have hz : n - ts.length = 0 := by omega
        rw [hz]
        have := hpre n
        simp only [List.take_zero, netIndent_nil]
        omega
      · have h2 : ts.take n = ts := List.take_of_length_le (by omega)
        rw [h2, hnet]
        have : netIndent ([td].take (n - ts.length)) = 0 ∨
            netIndent ([td].take (n - ts.length)) = -1 := by
          cases hm : n - ts.length with
          | zero => left; simp [netIndent]
          | succ m =>
            right
            have h3 : [td].take (m + 1) = [td] := List.take_of_length_le (by simp)
            have h4 : ¬td.type = TokType.INDENT := by rw [htd]; decide
            rw [h3, netIndent_cons, netIndent_nil]
            simp [indentDelta, h4, htd]
        omega
  · intro vocab valid st t cur h
    rcases h with hI | hD
    · rw [processToken, if_pos hI, paramIndentStep, if_pos hI]
    · have hI : ¬t.type = TokType.INDENT := by rw [hD]; decide
      rw [processToken, if_neg hI, if_pos hD, paramIndentStep, if_neg hI, if_pos hD]
  · intro ti td d ts hti htd hnet
    rw [List.foldl_cons]
    have h1 : paramIndentStep d ti = d + 1 := by
      simp [paramIndentStep, hti]
    rw [h1, foldl_paramIndentStep, netIndent_append, hnet, netIndent_cons, netIndent_nil]
    have h4 : ¬td.type = TokType.INDENT := by rw [htd]; decide
    have : indentDelta td = -1 := by simp [indentDelta, h4, htd]
    omega
  · intro d t hD
    have hI : ¬t.type = TokType.INDENT := by rw [hD]; decide
    rw [paramIndentStep, if_neg hI, if_pos hD]

/-- Witness for C1 (amended), at a concrete matched pair from depth 0
(keyword tracker) and depth 3 (parameter parser). -/
theorem C1_indent_depth_amended_witness :
    List.foldl keywordIndentStep 0
      [⟨TokType.INDENT, "\t", 1⟩, ⟨TokType.DEDENT, "", 2⟩] = 0
    ∧ List.foldl paramIndentStep 3
      [⟨TokType.INDENT, "\t", 1⟩, ⟨TokType.DEDENT, "", 2⟩] = 3 := by
  constructor
  · exact C1_indent_depth_amended.2.2.1 ⟨TokType.INDENT, "\t", 1⟩ ⟨TokType.DEDENT, "", 2⟩
      0 [] rfl rfl (by omega) rfl (fun n => by simp [netIndent])
  · exact C1_indent_depth_amended.2.2.2.2.1 ⟨TokType.INDENT, "\t", 1⟩ ⟨TokType.DEDENT, "", 2⟩
      3 [] rfl rfl rfl

/-
Claim C2.
-/

/-- C2: the claim describes `NoKeywordParamList` as running the generic
parameter-list parse and then failing only when a keyed parameter exists.
The code cannot do this: its `super().__init__` call drops the
`incident_vocab` argument, so construction always raises `TypeError`.  On
the token stream of `a, b` — all-positional, which the claim says must
succeed — the generic parse indeed yields two positional and zero keyed
parameters, yet `NoKeywordParamList` fails with `TypeError`. -/
theorem C2_noKeywordParamList_code_bug :
    noKeywordParamList vocabNone validAll 1 [mkName "a" 1, mkOp "," 1, mkName "b" 1]
      = Except.error PErr.typeError
    ∧ parseParams vocabNone validAll 1 [mkName "a" 1, mkOp "," 1, mkName "b" 1]
      = Except.ok (⟨0, false, false,
          [⟨"", "a", [], false⟩, ⟨"", "b", [], false⟩], []⟩, true) :=
  ⟨rfl, rfl⟩

/-
Claim C3.
-/

/-- C3: a flush triggered by a top-level comma (`flush_param` with the
default `skip_empty=False`) always appends the current parameter, even
with an empty value, while the flushes on iterator exhaustion and on the
dedent exit condition pass `skip_empty=True` and silently drop a valueless
parameter.  Conjuncts: (1) the comma step of `process_token` flushes
without skipping and the parameter count always grows by one; (2) a
skipping flush of a valueless parameter changes nothing; (3) iterator
exhaustion flushes with `skip_empty=True`; (4) the dedent exit condition
flushes with `skip_empty=True`; (5) concretely, `a,,b` keeps the explicit
empty middle parameter (three positional parameters); (6) concretely, a
trailing empty parameter after `a,` is dropped at end of input. -/
theorem C3_flush_asymmetry :
    (∀ (vocab valid : String → Bool) (st : PState) (cur : Parameter) (t : Token),
      is_comma_sign t = true → st.inBrackets = false →
      processToken vocab valid st t cur = Except.ok (Parameter.init, flushParam st cur false)
      ∧ numParamsSt (flushParam st cur false) = numParamsSt st + 1)
    ∧ (∀ (st : PState) (p : Parameter), p.has_value = false → flushParam st p true = st)
    ∧ (∀ (vocab valid : String → Bool) (target : Int) (st : PState) (cur : Parameter),
      parseLoop vocab valid target [] st cur = Except.ok (flushParam st cur true, true))
    ∧ (∀ (target : Int) (st : PState) (t : Token) (cur : Parameter),
      st.foundNewline = true → not_to_ignore t = true → st.curIndent < target →
      checkExit target st t cur = (true, flushParam st cur true))
    ∧ parseParams vocabNone validAll 0 [mkName "a" 1, mkOp "," 1, mkOp "," 1, mkName "b" 1]
      = Except.ok (⟨0, false, false,
          [⟨"", "a", [], false⟩, ⟨"", "", [], true⟩, ⟨"", "b", [], false⟩], []⟩, true)
    ∧ parseParams vocabNone validAll 0 [mkName "a" 1, mkOp "," 1]
      = Except.ok (⟨0, false, false, [⟨"", "a", [], false⟩], []⟩, true) := by
  refine ⟨?_, ?_, ?_, ?_, rfl, rfl⟩
  · intro vocab valid st cur t hc hb
    obtain ⟨h1, h2⟩ : t.type = TokType.OP ∧ t.string = "," := by
      simpa [is_comma_sign, Bool.and_eq_true, beq_iff_eq] using hc
    constructor
    · simp [processToken, h1, h2, is_equal_sign, is_comma_sign, hb]
    · by_cases hk : cur.has_key = true
      · simp [flushParam, numParamsSt, hk]
        omega
      · rw [Bool.not_eq_true] at hk
        simp [flushParam, numParamsSt, hk]
        omega
  · intro st p h
    simp [flushParam, h]
  · intro vocab valid target st cur
    rfl
  · intro target st t cur hfn hsig hlt
    simp [checkExit, hfn, hsig, hlt]

/-- Witness for C3, at a concrete comma step, a concrete skipping flush,
and a concrete dedent-exit check. -/
theorem C3_flush_asymmetry_witness :
    (processToken vocabNone validAll ⟨0, false, false, [], []⟩ (mkOp "," 7) Parameter.init
      = Except.ok (Parameter.init, flushParam ⟨0, false, false, [], []⟩ Parameter.init false)
      ∧ numParamsSt (flushParam ⟨0, false, false, [], []⟩ Parameter.init false)
        = numParamsSt ⟨0, false, false, [], []⟩ + 1)
    ∧ flushParam ⟨0, false, false, [], []⟩ Parameter.init true = ⟨0, false, false, [], []⟩
    ∧ checkExit 1 ⟨0, true, false, [], []⟩ (mkName "x" 3) Parameter.init
      = (true, flushParam ⟨0, true, false, [], []⟩ Parameter.init true) := by
  refine ⟨?_, ?_, ?_⟩
  · exact C3_flush_asymmetry.1 vocabNone validAll ⟨0, false, false, [], []⟩
      Parameter.init (mkOp "," 7) rfl rfl
  · exact C3_flush_asymmetry.2.1 ⟨0, false, false, [], []⟩ Parameter.init rfl
  · exact C3_flush_asymmetry.2.2.2.1 1 ⟨0, true, false, [], []⟩ (mkName "x" 3)
      Parameter.init rfl rfl (by decide)

/-
Claim C4.
-/

/-- The tokens contributed by an optional header element. -/
def optToList : Option Token → List Token
  | none => []
  | some t => [t]

/-- The keyword identity a well-formed header resolves to: the bare keyword,
or the keyword, a space, and the name's text. -/
def identityOf (kw : String) : Option Token → String
  | none => kw
  | some t => kw ++ " " ++ t.string

/-- The comment captured from an optional trailing comment token. -/
def commentStrOf : Option Token → String
  | none => ""
  | some t => " " ++ t.string

theorem eq_empty_of_len_zero (s : String) (h : s.length = 0) : s = "" := by
  cases s with
  | mk data =>
    have h2 : data.length = 0 := h
    have h3 : data = [] := List.length_eq_zero.mp h2
    rw [h3]

theorem append_ne_empty_left (s t : String) (h : s ≠ "") : s ++ t ≠ "" := by
  intro hc
  apply h
  have hl := congrArg String.length hc
  rw [String.length_append] at hl
  refine eq_empty_of_len_zero s ?_
  have hz : ("" : String).length = 0 := rfl
  omega

/-- C4: for a well-formed block header — optional name (when the keyword is
nameable), colon, optional trailing comment, newline — `KeywordSyntax`
construction resolves the identity to the bare keyword, or to
`keyword ++ " " ++ name` when a name is present, and the cursor ends
exactly after the consumed newline (`rest` is returned untouched). -/
theorem C4_block_header (kw : String) (target : Int) (parentProcessed : List String)
    (nameTok commentTok : Option Token) (colon nl : Token) (rest : List Token)
    (htarget : 0 ≤ target)
    (hkw : kw ≠ "")
    (hcolon : colon.type = TokType.OP) (hcolonStr : colon.string = ":")
    (hname : ∀ t, nameTok = some t →
      possibly_named_keywords.contains kw = true ∧ t.type = TokType.NAME)
    (hcomment : ∀ t, commentTok = some t → t.type = TokType.COMMENT)
    (hnl : nl.type = TokType.NEWLINE)
    (hdup : parentProcessed.contains (identityOf kw nameTok) = false) :
    keywordInit kw target parentProcessed
        (optToList nameTok ++ colon :: (optToList commentTok ++ nl :: rest))
      = Except.ok ⟨identityOf kw nameTok, commentStrOf commentTok, true,
          max (target - 1) 0, parentProcessed ++ [identityOf kw nameTok], rest⟩ := by
  have hic : is_colon colon = true := by
    simp [is_colon, hcolon, hcolonStr]
  have hncolon : ¬target < 0 := by omega
  have hheader : headerInit kw target
      (optToList nameTok ++ colon :: (optToList commentTok ++ nl :: rest))
      = Except.ok (identityOf kw nameTok, colon,
          optToList commentTok ++ nl :: rest) := by
    cases nameTok with
    | none =>
      simp only [optToList, identityOf, List.nil_append]
      simp [headerInit, hncolon, hic]
    | some nt =>
      obtain ⟨hmem, hnt⟩ := hname nt rfl
      have hmemp : kw ∈ possibly_named_keywords := by simpa using hmem
      have hntc : is_colon nt = false := by
        simp [is_colon, hnt]
      simp only [optToList, identityOf, List.cons_append, List.singleton_append]
      simp [headerInit, hncolon, hntc, hmemp, hnt, hic]
  have hidne : identityOf kw nameTok ≠ "" := by
    cases nameTok with
    | none => exact hkw
    | some nt => exact append_ne_empty_left _ _ (append_ne_empty_left _ _ hkw)
  have hmem2 : identityOf kw nameTok ∉ parentProcessed := by
    simpa using hdup
  have hadd : addProcessedKeyword parentProcessed colon (identityOf kw nameTok)
      = Except.ok (parentProcessed ++ [identityOf kw nameTok]) := by
    have hb : (identityOf kw nameTok == "") = false := by
      simp [hidne]
    simp [addProcessedKeyword, hb, hmem2]
  simp only [keywordInit, hheader, hadd]
  cases commentTok with
  | none =>
    have hc2 : ¬nl.type = TokType.COMMENT := by rw [hnl]; decide
    simp [optToList, commentStrOf, hc2, hnl]
  | some ct =>
    have hct : ct.type = TokType.COMMENT := hcomment ct rfl
    simp [optToList, commentStrOf, hct, hnl]

/-- Witness for C4: the header `rule foo: # c \n` under a parent that has
already processed `other`. -/
theorem C4_block_header_witness :
    keywordInit "rule" 1 ["other"]
        [mkName "foo" 1, mkOp ":" 1, ⟨TokType.COMMENT, "# c", 1⟩,
         ⟨TokType.NEWLINE, "\n", 1⟩, mkName "z" 2]
      = Except.ok ⟨"rule foo", " # c", true, 0, ["other", "rule foo"],
          [mkName "z" 2]⟩ := by
  exact C4_block_header "rule" 1 ["other"] (some (mkName "foo" 1))
    (some ⟨TokType.COMMENT, "# c", 1⟩) (mkOp ":" 1) ⟨TokType.NEWLINE, "\n", 1⟩
    [mkName "z" 2] (by omega) (by decide) rfl rfl
    (fun t ht => by injection ht with h; subst h; exact ⟨rfl, rfl⟩)
    (fun t ht => by injection ht with h; subst h; rfl)
    rfl (by decide)

/-
Claim C5.
-/

/-- C5: the token stream of `a, b, c` parses to exactly three positional
parameters in source order and no keyed parameter, for any vocabulary,
assignment-target oracle and target indent; the token stream of
`x = 1, y = 2` parses to no positional and exactly two keyed parameters in
source order with keys `x`, `y` and values `1`, `2`, provided the
assignment-target check accepts `x` and `y` (as Python's
`exec("x = 0")` does). -/
theorem C5_positional_and_keyed_lists (vocab valid : String → Bool) (target : Int)
    (l1 l2 l3 l4 l5 l6 l7 : Nat)
    (hx : valid "x" = true) (hy : valid "y" = true) :
    parseParams vocab valid target
        [mkName "a" l1, mkOp "," l2, mkName "b" l3, mkOp "," l4, mkName "c" l5]
      = Except.ok (⟨max (target - 1) 0, false, false,
          [⟨"", "a", [], false⟩, ⟨"", "b", [], false⟩, ⟨"", "c", [], false⟩], []⟩, true)
    ∧ parseParams vocab valid target
        [mkName "x" l1, mkOp "=" l2, mkNum "1" l3, mkOp "," l4,
         mkName "y" l5, mkOp "=" l6, mkNum "2" l7]
      = Except.ok (⟨max (target - 1) 0, false, false, [],
          [⟨"x", "1", [], false⟩, ⟨"y", "2", [], false⟩]⟩, true) := by
  constructor
  · rfl
  · simp +decide [parseParams, parseLoop, processToken, checkExit, flushParam,
      numParamsSt, initPState, Parameter.to_key_val_mode, Parameter.has_value,
      Parameter.has_key, Parameter.add_elem, Parameter.init, is_equal_sign,
      is_comma_sign, not_to_ignore, brack_open, brack_close, brackToggle,
      pyWords, splitWS, mkName, mkOp, mkNum, hx, hy]

/-- Witness for C5 with the all-accepting assignment-target oracle. -/
theorem C5_positional_and_keyed_lists_witness :
    parseParams vocabNone validAll 0
        [mkName "a" 1, mkOp "," 1, mkName "b" 1, mkOp "," 1, mkName "c" 1]
      = Except.ok (⟨0, false, false,
          [⟨"", "a", [], false⟩, ⟨"", "b", [], false⟩, ⟨"", "c", [], false⟩], []⟩, true)
    ∧ parseParams vocabNone validAll 0
        [mkName "x" 1, mkOp "=" 1, mkNum "1" 1, mkOp "," 1,
         mkName "y" 1, mkOp "=" 1, mkNum "2" 1]
      = Except.ok (⟨0, false, false, [],
          [⟨"x", "1", [], false⟩, ⟨"y", "2", [], false⟩]⟩, true) := by
  exact C5_positional_and_keyed_lists vocabNone validAll 0 1 1 1 1 1 1 1 rfl rfl

/-
Claim C6.
-/

/-- C6: while the bracket-nesting flag is set, a comma is not a separator:
it is handed to the generic branch of `process_token`, which appends it to
the current value and flushes nothing (first conjunct, for any state with
`in_brackets` true, provided the over-indent keyword guard does not fire).
Concretely, `f(a, b), c` parses to exactly two positional parameters and
no keyed parameter; the first parameter accumulates the whole bracketed
call (`add_elem` inserts a space before each NAME token appended to a
non-empty value, so its value reads `f( a, b)`), the second is `c`
(second conjunct). -/
theorem C6_brackets_do_not_split (vocab valid : String → Bool) (target : Int)
    (hf : vocab "f" = false) (hfp : vocab "f(" = false) :
    (∀ (st : PState) (cur : Parameter) (t : Token),
      is_comma_sign t = true → st.inBrackets = true →
      ((pyWords cur.value).length = 1 → vocab cur.value = false) →
      processToken vocab valid st t cur = Except.ok (cur.add_elem t, st))
    ∧ parseParams vocab valid target
        [mkName "f" 1, mkOp "(" 1, mkName "a" 1, mkOp "," 1,
         mkName "b" 1, mkOp ")" 1, mkOp "," 1, mkName "c" 1]
      = Except.ok (⟨max (target - 1) 0, false, false,
          [⟨"", "f( a, b)", [], false⟩, ⟨"", "c", [], false⟩], []⟩, true) := by
  constructor
  · intro st cur t hc hb hno
    obtain ⟨h1, h2⟩ : t.type = TokType.OP ∧ t.string = "," := by
      simpa [is_comma_sign, Bool.and_eq_true, beq_iff_eq] using hc
    have hbo : brack_open t = false := by simp [brack_open, h1, h2]
    have hbc : brack_close t = false := by simp [brack_close, h1, h2]
    by_cases hl : (pyWords cur.value).length = 1
    · have hv : vocab cur.value = false := hno hl
      simp [processToken, brackToggle, h1, h2, is_equal_sign, hb, hbo, hbc, hl, hv]
    · simp [processToken, brackToggle, h1, h2, is_equal_sign, hb, hbo, hbc, hl]
  · simp +decide [parseParams, parseLoop, processToken, checkExit, flushParam,
      numParamsSt, initPState, Parameter.to_key_val_mode, Parameter.has_value,
      Parameter.has_key, Parameter.add_elem, Parameter.init, is_equal_sign,
      is_comma_sign, not_to_ignore, brack_open, brack_close, brackToggle,
      pyWords, splitWS, mkName, mkOp, mkNum, hf, hfp]

/-- Witness for C6, with the empty vocabulary: the in-bracket comma step at
a concrete state, and the concrete `f(a, b), c` parse. -/
theorem C6_brackets_do_not_split_witness :
    processToken vocabNone validAll ⟨0, false, true, [], []⟩ (mkOp "," 2)
        ⟨"", "f(", [], false⟩
      = Except.ok ((⟨"", "f(", [], false⟩ : Parameter).add_elem (mkOp "," 2),
          ⟨0, false, true, [], []⟩)
    ∧ parseParams vocabNone validAll 0
        [mkName "f" 1, mkOp "(" 1, mkName "a" 1, mkOp "," 1,
         mkName "b" 1, mkOp ")" 1, mkOp "," 1, mkName "c" 1]
      = Except.ok (⟨0, false, false,
          [⟨"", "f( a, b)", [], false⟩, ⟨"", "c", [], false⟩], []⟩, true) := by
  constructor
  · exact (C6_brackets_do_not_split vocabNone validAll 0 rfl rfl).1
      ⟨0, false, true, [], []⟩ ⟨"", "f(", [], false⟩ (mkOp "," 2) rfl rfl
      (fun _ => rfl)
  · exact (C6_brackets_do_not_split vocabNone validAll 0 rfl rfl).2

/-
Claim C7.
-/

theorem parseParams_ok_nonzero (vocab valid : String → Bool) (target : Int)
    (toks : List Token) (st : PState) (eof : Bool)
    (h : parseParams vocab valid target toks = Except.ok (st, eof)) :
    numParamsSt st ≠ 0 := by
  unfold parseParams at h
  cases hl : parseLoop vocab valid target toks (initPState target) Parameter.init with
  | error e => rw [hl] at h; simp at h
  | ok r =>
    obtain ⟨st2, eof2⟩ := r
    rw [hl] at h
    have h2 : (if numParamsSt st2 = 0
        then (Except.error PErr.noParametersError : Except PErr (PState × Bool))
        else Except.ok (st2, eof2)) = Except.ok (st, eof) := h
    by_cases hz : numParamsSt st2 = 0
    · rw [if_pos hz] at h2; simp at h2
    · rw [if_neg hz] at h2
      obtain ⟨rfl, rfl⟩ : st2 = st ∧ eof2 = eof := by
        simpa using h2
      exact hz

/-- C7: after the generic parse completes with state `st`, `SingleParam`
succeeds exactly when one positional and zero keyed parameters were
produced; it fails with `TooManyParameters` exactly when more than one
parameter (of any kind) was produced; and it fails with
`InvalidParameter` exactly when at most one parameter was produced but a
keyed one exists. -/
theorem C7_singleParam_trichotomy (vocab valid : String → Bool) (target : Int)
    (toks : List Token) (st : PState) (eof : Bool)
    (h : parseParams vocab valid target toks = Except.ok (st, eof)) :
    (singleParam vocab valid target toks = Except.ok (st, eof)
      ↔ (st.positional.length = 1 ∧ st.keyword.length = 0))
    ∧ (singleParam vocab valid target toks = Except.error PErr.tooManyParameters
      ↔ 1 < numParamsSt st)
    ∧ (singleParam vocab valid target toks = Except.error PErr.invalidParameter
      ↔ (numParamsSt st ≤ 1 ∧ st.keyword.length ≠ 0)) := by
  have hpos : numParamsSt st ≠ 0 := parseParams_ok_nonzero vocab valid target toks st eof h
  have hnum : numParamsSt st = st.keyword.length + st.positional.length := rfl
  simp only [singleParam, h]
  by_cases h1 : 1 < numParamsSt st
  · rw [if_pos h1]
    exact ⟨⟨fun hc => by simp at hc, fun hc => by exfalso; omega⟩,
           ⟨fun _ => h1, fun _ => rfl⟩,
           ⟨fun hc => by simp at hc, fun hc => by exfalso; omega⟩⟩
  · rw [if_neg h1]
    by_cases hk : st.keyword.length = 0
    · have hkb : (st.keyword.length == 0) = true := by simpa using hk
      rw [hkb]
      simp only [Bool.not_true, Bool.false_eq_true, if_false]
      exact ⟨⟨fun _ => ⟨by omega, hk⟩, fun _ => trivial⟩,
             ⟨fun hc => by simp at hc, fun hc => by exfalso; omega⟩,
             ⟨fun hc => by simp at hc, fun hc => by exfalso; omega⟩⟩
    · have hkb : (st.keyword.length == 0) = false := by simpa using hk
      rw [hkb]
      simp only [Bool.not_false, if_true]
      exact ⟨⟨fun hc => by simp at hc, fun hc => by exfalso; omega⟩,
             ⟨fun hc => by simp at hc, fun hc => by exfalso; omega⟩,
             ⟨fun _ => ⟨by omega, hk⟩, fun _ => trivial⟩⟩

/-- Witness for C7: `SingleParam` on the single bare value `v`. -/
theorem C7_singleParam_trichotomy_witness :
    singleParam vocabNone validAll 0 [mkName "v" 1]
      = Except.ok (⟨0, false, false, [⟨"", "v", [], false⟩], []⟩, true) := by
  exact (C7_singleParam_trichotomy vocabNone validAll 0 [mkName "v" 1]
    ⟨0, false, false, [⟨"", "v", [], false⟩], []⟩ true rfl).1.mpr (by decide)

/-
Claim C8.
-/

/-- C8: the queriable flag of the keyword-block tracker admits at most one
yielded significant token per logical line.  Conjuncts: (1) with the flag
down and no line break among the tokens, nothing but ENDMARKER can be
yielded; (2) whenever a NAME token is yielded the returned flag is down;
(3) a NAME token arriving with the flag down is appended to the buffer
(preceded by the separating space) and pulling continues; (4) a line-break
token raises the flag again; (5) the flag starts up:
`KeywordSyntax.__init__` always constructs the tracker with
`queriable = True`. -/
theorem C8_queriable_once_per_line :
    (∀ (target : Int) (toks : List Token) (cur : Int) (nl : Bool) (buf : String)
        (res : KStatus × Int × Bool × List Token),
      getNextQueriable target toks cur false nl buf = some res →
      (∀ t ∈ toks, t.type ≠ TokType.NEWLINE) →
      res.1.token.type = TokType.ENDMARKER)
    ∧ (∀ (target : Int) (toks : List Token) (cur : Int) (q nl : Bool) (buf : String)
        (res : KStatus × Int × Bool × List Token),
      getNextQueriable target toks cur q nl buf = some res →
      res.1.token.type = TokType.NAME → res.2.2.1 = false)
    ∧ (∀ (target : Int) (t : Token) (rest : List Token) (cur : Int) (buf : String),
      t.type = TokType.NAME →
      getNextQueriable target (t :: rest) cur false false buf =
        getNextQueriable target rest cur false false (buf ++ " " ++ t.string))
    ∧ (∀ (target : Int) (t : Token) (rest : List Token) (cur : Int) (q nl : Bool)
        (buf : String),
      t.type = TokType.NEWLINE →
      getNextQueriable target (t :: rest) cur q nl buf =
        getNextQueriable target rest cur true true (buf ++ t.string))
    ∧ (∀ (kw : String) (target : Int) (pp : List String) (toks : List Token)
        (r : KeywordInitResult),
      keywordInit kw target pp toks = Except.ok r → r.queriable = true) := by
  refine ⟨?_, ?_, ?_, ?_, ?_⟩
  · intro target toks
    induction toks with
    | nil => intro cur nl buf res h _; simp [getNextQueriable] at h
    | cons t rest ih =>
      intro cur nl buf res h hnl
      have htn : t.type ≠ TokType.NEWLINE := hnl t (by simp)
      have hrest : ∀ u ∈ rest, u.type ≠ TokType.NEWLINE :=
        fun u hu => hnl u (by simp [hu])
      rw [getNextQueriable] at h
      by_cases hN : t.type = TokType.NAME
      · rw [if_pos hN] at h
        rw [if_neg (by simp : ¬(cur ≤ target ∧ false = true))] at h
        exact ih cur false _ res h hrest
      · rw [if_neg hN] at h
        by_cases hI : t.type = TokType.INDENT
        · rw [if_pos hI] at h
          exact ih (cur + 1) nl buf res h hrest
        · rw [if_neg hI] at h
          by_cases hD : t.type = TokType.DEDENT
          · rw [if_pos hD] at h
            exact ih _ nl _ res h hrest
          · rw [if_neg hD] at h
            by_cases hE : t.type = TokType.ENDMARKER
            · rw [if_pos hE] at h
              obtain rfl : (⟨⟨t, cur, buf, true⟩, cur, false, rest⟩ :
                  KStatus × Int × Bool × List Token) = res := Option.some.inj h
              exact hE
            · rw [if_neg hE, if_neg htn] at h
              exact ih cur nl _ res h hrest
  · intro target toks
    induction toks with
    | nil => intro cur q nl buf res h _; simp [getNextQueriable] at h
    | cons t rest ih =>
      intro cur q nl buf res h hname
      rw [getNextQueriable] at h
      by_cases hN : t.type = TokType.NAME
      · rw [if_pos hN] at h
        by_cases hy : cur ≤ target ∧ q = true
        · rw [if_pos hy] at h
          obtain rfl : (⟨⟨t, cur, _, false⟩, cur, false, rest⟩ :
              KStatus × Int × Bool × List Token) = res := Option.some.inj h
          rfl
        · rw [if_neg hy] at h
          exact ih cur q false _ res h hname
      · rw [if_neg hN] at h
        by_cases hI : t.type = TokType.INDENT
        · rw [if_pos hI] at h
          exact ih (cur + 1) q nl buf res h hname
        · rw [if_neg hI] at h
          by_cases hD : t.type = TokType.DEDENT
          · rw [if_pos hD] at h
            exact ih _ q nl _ res h hname
          · rw [if_neg hD] at h
            by_cases hE : t.type = TokType.ENDMARKER
            · rw [if_pos hE] at h
              obtain rfl : (⟨⟨t, cur, buf, true⟩, cur, q, rest⟩ :
                  KStatus × Int × Bool × List Token) = res := Option.some.inj h
              exact absurd hname hN
            · rw [if_neg hE] at h
              by_cases hL : t.type = TokType.NEWLINE
              · rw [if_pos hL] at h
                exact ih cur true true _ res h hname
              · rw [if_neg hL] at h
                exact ih cur q nl _ res h hname
  · intro target t rest cur buf hN
    rw [getNextQueriable, if_pos hN,
      if_neg (by simp : ¬(cur ≤ target ∧ false = true))]
    simp
  · intro target t rest cur q nl buf hL
    have hN : ¬t.type = TokType.NAME := by rw [hL]; decide
    have hI : ¬t.type = TokType.INDENT := by rw [hL]; decide
    have hD : ¬t.type = TokType.DEDENT := by rw [hL]; decide
    have hE : ¬t.type = TokType.ENDMARKER := by rw [hL]; decide
    rw [getNextQueriable, if_neg hN, if_neg hI, if_neg hD, if_neg hE, if_pos hL]
  · intro kw target pp toks r h
    unfold keywordInit at h
    repeat' split at h
    all_goals first
      | (obtain rfl := h; rfl)
      | (obtain rfl := Except.ok.inj h; rfl)
      | simp at h

/-- Witness for C8: a NAME under a lowered flag is buffered; a newline
raises the flag; a stream with no newline and the flag down yields only
ENDMARKER; construction leaves the flag up. -/
theorem C8_queriable_once_per_line_witness :
    getNextQueriable 0 [mkName "a" 1, ⟨TokType.ENDMARKER, "", 1⟩] 0 false false "" =
      getNextQueriable 0 [⟨TokType.ENDMARKER, "", 1⟩] 0 false false (" " ++ "a")
    ∧ getNextQueriable 0 [⟨TokType.NEWLINE, "\n", 1⟩, mkName "a" 2] 0 false false "" =
      getNextQueriable 0 [mkName "a" 2] 0 true true "\n"
    ∧ (∀ res, getNextQueriable 0 [mkName "a" 1, ⟨TokType.ENDMARKER, "", 1⟩] 0 false false ""
        = some res → res.1.token.type = TokType.ENDMARKER)
    ∧ (∀ r, keywordInit "rule" 0 [] [mkOp ":" 1, ⟨TokType.NEWLINE, "\n", 1⟩]
        = Except.ok r → r.queriable = true) := by
  refine ⟨?_, ?_, ?_, ?_⟩
  · exact C8_queriable_once_per_line.2.2.1 0 (mkName "a" 1)
      [⟨TokType.ENDMARKER, "", 1⟩] 0 "" rfl
  · exact C8_queriable_once_per_line.2.2.2.1 0 ⟨TokType.NEWLINE, "\n", 1⟩
      [mkName "a" 2] 0 false false "" rfl
  · intro res h
    exact C8_queriable_once_per_line.1 0 _ 0 false "" res h (by decide)
  · intro r h
    exact C8_queriable_once_per_line.2.2.2.2 "rule" 0 [] _ r h

/-
Claim C9.
-/

theorem to_key_val_mode_error (p : Parameter) (valid : String → Bool) (e : PErr)
    (h : p.to_key_val_mode valid = Except.error e) :
    e = PErr.invalidParameterSyntaxErr := by
  unfold Parameter.to_key_val_mode at h
  by_cases h1 : (!p.has_value) = true
  · rw [if_pos h1] at h
    exact (Except.error.inj h).symm
  · rw [if_neg h1] at h
    by_cases h2 : (!valid p.value) = true
    · rw [if_pos h2] at h
      exact (Except.error.inj h).symm
    · rw [if_neg h2] at h
      simp at h

theorem processToken_error (vocab valid : String → Bool) (st : PState) (t : Token)
    (cur : Parameter) (e : PErr)
    (h : processToken vocab valid st t cur = Except.error e) :
    e = PErr.invalidParameterSyntaxErr := by
  unfold processToken at h
  repeat' split at h
  all_goals first
    | (obtain rfl := Except.error.inj h; rfl)
    | (rename_i heq
       obtain rfl := Except.error.inj h
       exact to_key_val_mode_error _ _ _ heq)
    | simp at h

theorem parseLoop_error (vocab valid : String → Bool) (target : Int) :
    ∀ (toks : List Token) (st : PState) (cur : Parameter) (e : PErr),
    parseLoop vocab valid target toks st cur = Except.error e →
    e = PErr.invalidParameterSyntaxErr := by
  intro toks
  induction toks with
  | nil => intro st cur e h; simp [parseLoop] at h
  | cons t rest ih =>
    intro st cur e h
    rw [parseLoop] at h
    cases hce : checkExit target st t cur with
    | mk ex st2 =>
      rw [hce] at h
      cases ex with
      | true => simp at h
      | false =>
        have h2 : (match processToken vocab valid st2 t cur with
            | Except.error e => (Except.error e : Except PErr (PState × Bool))
            | Except.ok (cur2, st3) => parseLoop vocab valid target rest st3 cur2)
            = Except.error e := h
        cases hp : processToken vocab valid st2 t cur with
        | error e2 =>
          rw [hp] at h2
          obtain rfl : e2 = e := Except.error.inj h2
          exact processToken_error vocab valid st2 t cur _ hp
        | ok r =>
          obtain ⟨cur2, st3⟩ := r
          rw [hp] at h2
          exact ih st3 cur2 e h2

/-- C9: when the scan loop of `parse_params` completes (by the dedent exit
condition or end of input) with zero parameters in total, the parse fails
with `NoParametersError`; when it completes with at least one parameter,
that error is never raised — indeed the loop itself can only raise
`InvalidParameterSyntax`, so `NoParametersError` arises exactly from the
zero-parameter post-condition.  The last conjunct runs the concrete
immediate-dedent stream (newline, dedent, then an outdented name). -/
theorem C9_no_parameters (vocab valid : String → Bool) (target : Int)
    (toks : List Token) :
    (∀ (st : PState) (eof : Bool),
      parseLoop vocab valid target toks (initPState target) Parameter.init
        = Except.ok (st, eof) →
      (numParamsSt st = 0 →
        parseParams vocab valid target toks = Except.error PErr.noParametersError)
      ∧ (numParamsSt st ≠ 0 →
        parseParams vocab valid target toks = Except.ok (st, eof)))
    ∧ (∀ e : PErr,
      parseLoop vocab valid target toks (initPState target) Parameter.init
        = Except.error e →
      e ≠ PErr.noParametersError)
    ∧ parseParams vocabNone validAll 1
        [⟨TokType.NEWLINE, "\n", 1⟩, ⟨TokType.DEDENT, "", 2⟩, mkName "rule" 2]
      = Except.error PErr.noParametersError := by
  refine ⟨?_, ?_, rfl⟩
  · intro st eof h
    constructor
    · intro hz
      unfold parseParams
      rw [h]
      show (if numParamsSt st = 0
          then (Except.error PErr.noParametersError : Except PErr (PState × Bool))
          else Except.ok (st, eof)) = _
      rw [if_pos hz]
    · intro hz
      unfold parseParams
      rw [h]
      show (if numParamsSt st = 0
          then (Except.error PErr.noParametersError : Except PErr (PState × Bool))
          else Except.ok (st, eof)) = _
      rw [if_neg hz]
  · intro e h
    rw [parseLoop_error vocab valid target toks (initPState target) Parameter.init e h]
    decide

/-- Witness for C9: the empty token stream completes the scan with zero
parameters and the parse fails with `NoParametersError`. -/
theorem C9_no_parameters_witness :
    parseParams vocabNone validAll 0 ([] : List Token)
      = Except.error PErr.noParametersError := by
  exact ((C9_no_parameters vocabNone validAll 0 []).1 (initPState 0) true rfl).1 rfl

/-
Claim C10.
-/

/-- C10: the over-indented-recognised-keyword guard of `process_token` is
applied on every token reaching the generic accumulation branch,
independently of the bracket-nesting flag: whenever the current value is a
single whitespace-delimited word the vocabulary recognises, the parse
fails with `InvalidParameterSyntax` — including for non-comma, non-equals
significant tokens seen while `in_brackets` is true, and even for commas
and equals signs themselves when they occur inside an unmatched open
bracket. -/
theorem C10_overindent_guard_in_brackets (vocab valid : String → Bool)
    (st : PState) (cur : Parameter) (t : Token)
    (h1 : t.type ≠ TokType.INDENT) (h2 : t.type ≠ TokType.DEDENT)
    (h3 : t.type ≠ TokType.NEWLINE) (h4 : t.type ≠ TokType.NL)
    (h5 : t.type ≠ TokType.COMMENT) (h6 : t.type ≠ TokType.ENDMARKER)
    (h7 : is_equal_sign t = false ∨ st.inBrackets = true)
    (h8 : is_comma_sign t = false ∨ st.inBrackets = true)
    (h9 : (pyWords cur.value).length = 1)
    (h10 : vocab cur.value = true) :
    processToken vocab valid st t cur = Except.error PErr.invalidParameterSyntaxErr := by
  have he : (is_equal_sign t && !st.inBrackets) = false := by
    rcases h7 with h | h
    · rw [h]; rfl
    · rw [h]; simp
  have hc : (is_comma_sign t && !st.inBrackets) = false := by
    rcases h8 with h | h
    · rw [h]; rfl
    · rw [h]; simp
  simp [processToken, h1, h2, h3, h4, h5, h6, he, hc, h9, h10]

/-- Witness for C10: a comma arriving inside an unmatched open bracket
while the current value is the recognised word `rule`. -/
theorem C10_overindent_guard_in_brackets_witness :
    processToken vocabRule validAll ⟨0, false, true, [], []⟩ (mkOp "," 9)
        ⟨"", "rule", [], false⟩
      = Except.error PErr.invalidParameterSyntaxErr := by
  exact C10_overindent_guard_in_brackets vocabRule validAll
    ⟨0, false, true, [], []⟩ ⟨"", "rule", [], false⟩ (mkOp "," 9)
    (by decide) (by decide) (by decide) (by decide) (by decide) (by decide)
    (Or.inr rfl) (Or.inr rfl) rfl rfl

end Snakefmt
